import Mathlib

/-!
Verification development for the xmlparser tokenizer (src/src/lib.rs).

The tokenizer's state machine and all grammar recognizers are translated
from `src/src/lib.rs`.  The supporting modules (`stream.rs`, `strspan.rs`,
`error.rs`, `xmlchar.rs`) are declared in `lib.rs` but their sources are
not part of the repository snapshot; those definitions are modelled from
the specification (spec.md sections 4.1, 4.2, 4.3 and 7) and each one is
marked as such in its doc comment.

The input buffer is modelled as a list of characters (the Rust code scans
a UTF-8 `&str`; byte offsets into it are modelled as character offsets,
and the 3-byte UTF-8 BOM becomes the single character U+FEFF).
-/

namespace XmlParser

/-! ## Character classification (xmlchar.rs is not under src/) -/

/-- Modelled from the spec: `IsXmlSpace`, the XML whitespace class
(space, tab, carriage return, line feed). -/
def isXmlSpace (c : Char) : Bool :=
  c == ' ' || c == '\t' || c == '\n' || c == '\r'

/-- Modelled from the spec: `IsXmlChar`, the XML 1.0 `Char` production
(excluding most control characters). -/
def isXmlChar (c : Char) : Bool :=
  c == '\t' || c == '\n' || c == '\r'
    || (0x20 ≤ c.toNat && c.toNat ≤ 0xD7FF)
    || (0xE000 ≤ c.toNat && c.toNat ≤ 0xFFFD)
    || (0x10000 ≤ c.toNat && c.toNat ≤ 0x10FFFF)

/-- Modelled from the spec: `IsXmlDigit`. -/
def isXmlDigit (c : Char) : Bool :=
  '0' ≤ c && c ≤ '9'

/-- Modelled from the spec: `IsXmlLetter`, approximated by letter
categories; only consulted by the encoding-name scanner. -/
def isXmlLetter (c : Char) : Bool :=
  c.isAlpha

/-- Modelled from the spec: `IsXmlNameStartChar`, the XML 1.0
`NameStartChar` production. -/
def isXmlNameStart (c : Char) : Bool :=
  c == ':' || c == '_'
    || ('A' ≤ c && c ≤ 'Z') || ('a' ≤ c && c ≤ 'z')
    || (0xC0 ≤ c.toNat && c.toNat ≤ 0xD6)
    || (0xD8 ≤ c.toNat && c.toNat ≤ 0xF6)
    || (0xF8 ≤ c.toNat && c.toNat ≤ 0x2FF)
    || (0x370 ≤ c.toNat && c.toNat ≤ 0x37D)
    || (0x37F ≤ c.toNat && c.toNat ≤ 0x1FFF)
    || (0x200C ≤ c.toNat && c.toNat ≤ 0x200D)
    || (0x2070 ≤ c.toNat && c.toNat ≤ 0x218F)
    || (0x2C00 ≤ c.toNat && c.toNat ≤ 0x2FEF)
    || (0x3001 ≤ c.toNat && c.toNat ≤ 0xD7FF)
    || (0xF900 ≤ c.toNat && c.toNat ≤ 0xFDCF)
    || (0xFDF0 ≤ c.toNat && c.toNat ≤ 0xFFFD)
    || (0x10000 ≤ c.toNat && c.toNat ≤ 0xEFFFF)

/-- Modelled from the spec: `IsXmlNameChar`, the XML 1.0 `NameChar`
production. -/
def isXmlNameChar (c : Char) : Bool :=
  isXmlNameStart c || c == '-' || c == '.' || isXmlDigit c
    || c.toNat == 0xB7
    || (0x300 ≤ c.toNat && c.toNat ≤ 0x36F)
    || (0x203F ≤ c.toNat && c.toNat ≤ 0x2040)

/-! ## Positions and spans (strspan.rs / error.rs are not under src/) -/

/-- Modelled from the spec: `TextPos` is a 1-based line and column. -/
structure TextPos where
  line : Nat
  col : Nat
deriving DecidableEq, Repr

/-- Modelled from the spec: a `TextPos` is derived on demand from a byte
offset by counting line breaks from the buffer start. -/
def genTextPosFrom (buf : List Char) (offset : Nat) : TextPos :=
  let pre := buf.take offset
  { line := pre.count '\n' + 1
    col := (pre.reverse.takeWhile (fun c => c != '\n')).length + 1 }

/-- Modelled from the spec: `StrSpan` is a non-owning reference to a
sub-range of the input, pairing a start offset with its content. -/
structure StrSpan where
  start : Nat
  text : List Char
deriving DecidableEq, Repr

/-- Modelled from the spec: the stream-level error taxonomy (spec section 7). -/
inductive StreamError where
  | UnexpectedEndOfStream
  | InvalidChar (expected : List Char) (pos : TextPos)
  | InvalidString (expected : List (List Char)) (pos : TextPos)
  | InvalidExternalID
  | InvalidAttributeValue
  | InvalidName
deriving DecidableEq, Repr

/-! ## Token data model (from src/src/lib.rs) -/

/-- `ElementEnd` token (lib.rs). -/
inductive ElementEnd where
  | Open
  | Close (pfx : StrSpan) (local_ : StrSpan)
  | Empty
deriving DecidableEq, Repr

/-- `ExternalId` (lib.rs). -/
inductive ExternalId where
  | System (literal : StrSpan)
  | Public (literal1 : StrSpan) (literal2 : StrSpan)
deriving DecidableEq, Repr

/-- `EntityDefinition` (lib.rs). -/
inductive EntityDefinition where
  | EntityValue (value : StrSpan)
  | ExternalId (id : ExternalId)
deriving DecidableEq, Repr

/-- `Token` (lib.rs). -/
inductive Token where
  | Declaration (version : StrSpan) (encoding : Option StrSpan) (standalone : Option Bool)
  | ProcessingInstruction (target : StrSpan) (content : Option StrSpan)
  | Comment (text : StrSpan)
  | DtdStart (name : StrSpan) (id : Option ExternalId)
  | EmptyDtd (name : StrSpan) (id : Option ExternalId)
  | EntityDeclaration (name : StrSpan) (def_ : EntityDefinition)
  | DtdEnd
  | ElementStart (pfx : StrSpan) (local_ : StrSpan)
  | Attribute (name : StrSpan × StrSpan) (value : StrSpan)
  | ElementEnd (end_ : ElementEnd)
  | Text (text : StrSpan)
  | Whitespaces (text : StrSpan)
  | Cdata (text : StrSpan)
deriving DecidableEq, Repr

/-- `TokenType` (lib.rs). -/
inductive TokenType where
  | XMLDecl
  | Comment
  | PI
  | DoctypeDecl
  | ElementDecl
  | AttlistDecl
  | EntityDecl
  | NotationDecl
  | DoctypeEnd
  | ElementStart
  | ElementClose
  | Attribute
  | CDSect
  | Whitespace
  | CharData
  | Unknown
deriving DecidableEq, Repr

/-- Token-level `Error` (error.rs is not under src/; modelled from the
spec's section 7 taxonomy, matching the constructors used by lib.rs). -/
inductive Error where
  | InvalidToken (t : TokenType) (pos : TextPos) (cause : Option StreamError)
  | UnexpectedToken (t : TokenType) (pos : TextPos)
  | UnknownToken (pos : TextPos)
deriving DecidableEq, Repr

/-- `State` (lib.rs). -/
inductive State where
  | Start
  | Dtd
  | AfterDtd
  | Elements
  | Attributes
  | AfterElements
  | End
deriving DecidableEq, Repr

/-! ## Cursor (stream.rs is not under src/; modelled from spec section 4.2) -/

/-- Modelled from the spec: the Cursor is a forward-only scanning
position over the input buffer. -/
structure Stream where
  buf : List Char
  pos : Nat
deriving DecidableEq, Repr

/-- The unread part of the buffer. -/
def Stream.rest (s : Stream) : List Char := s.buf.drop s.pos

/-- Modelled from the spec: `at_end`. -/
def Stream.atEnd (s : Stream) : Bool := s.rest.isEmpty

/-- Modelled from the spec: `advance(n)`. -/
def Stream.advance (s : Stream) (n : Nat) : Stream := { s with pos := s.pos + n }

/-- Modelled from the spec: `jump_to_end` forces the cursor to the buffer end. -/
def Stream.jumpToEnd (s : Stream) : Stream := { s with pos := s.buf.length }

/-- Modelled from the spec: `curr_byte` fails with `UnexpectedEndOfStream` at end. -/
def Stream.currByte (s : Stream) : Except StreamError Char :=
  match s.rest with
  | [] => .error .UnexpectedEndOfStream
  | c :: _ => .ok c

/-- Modelled from the spec: `get_curr_byte`, the non-failing peek. -/
def Stream.getCurrByte (s : Stream) : Option Char := s.rest.head?

/-- Modelled from the spec: `starts_with(literal)`. -/
def Stream.startsWith (s : Stream) (lit : List Char) : Bool := lit.isPrefixOf s.rest

/-- Modelled from the spec: `starts_with_space`. -/
def Stream.startsWithSpace (s : Stream) : Bool :=
  match s.rest with
  | c :: _ => isXmlSpace c
  | [] => false

/-- Modelled from the spec: `skip_spaces` consumes zero or more whitespace. -/
def Stream.skipSpaces (s : Stream) : Stream :=
  s.advance (s.rest.takeWhile isXmlSpace).length

/-- Modelled from the spec: `skip_ascii_spaces`; the ASCII whitespace set
coincides with the XML whitespace set (space, tab, CR, LF). -/
def Stream.skipAsciiSpaces (s : Stream) : Stream := s.skipSpaces

/-- Modelled from the spec: `consume_spaces` fails if zero whitespace is
consumed where the grammar requires at least one. -/
def Stream.consumeSpaces (s : Stream) : Except StreamError Stream :=
  match s.rest with
  | [] => .error .UnexpectedEndOfStream
  | c :: _ =>
    if isXmlSpace c then .ok s.skipSpaces
    else .error (.InvalidChar [c] (genTextPosFrom s.buf s.pos))

/-- Modelled from the spec: `skip_string(literal)` must match or fail
with a descriptive mismatch error. -/
def Stream.skipString (s : Stream) (lit : List Char) : Except StreamError Stream :=
  if s.startsWith lit then .ok (s.advance lit.length)
  else .error (.InvalidString [lit] (genTextPosFrom s.buf s.pos))

/-- Scanner core shared by `consume_bytes` / `consume_chars`: splits the
input at the first position whose character fails the predicate; the
predicate also sees the not-yet-consumed input starting at that character
(the Rust closures receive the stream positioned at the character). -/
def spanWhileP (p : List Char → Char → Bool) : List Char → List Char × List Char
  | [] => ([], [])
  | c :: cs =>
    if p (c :: cs) c then
      let r := spanWhileP p cs
      (c :: r.1, r.2)
    else ([], c :: cs)

/-- Modelled from the spec: `consume_bytes(predicate)` returns the consumed span. -/
def Stream.consumeBytes (s : Stream) (p : List Char → Char → Bool) : StrSpan × Stream :=
  let t := (spanWhileP p s.rest).1
  (⟨s.pos, t⟩, s.advance t.length)

/-- Modelled from the spec: `skip_bytes(predicate)`. -/
def Stream.skipBytes (s : Stream) (p : List Char → Char → Bool) : Stream :=
  s.advance (spanWhileP p s.rest).1.length

/-- Modelled from the spec: `consume_chars`, the UTF-8-aware variant of
`consume_bytes`; identical in the character-list model. -/
def Stream.consumeChars (s : Stream) (p : List Char → Char → Bool) : StrSpan × Stream :=
  s.consumeBytes p

/-- Modelled from the spec: `consume_byte(expected)`. -/
def Stream.consumeByte (s : Stream) (c : Char) : Except StreamError Stream :=
  match s.rest with
  | [] => .error .UnexpectedEndOfStream
  | x :: _ =>
    if x == c then .ok (s.advance 1)
    else .error (.InvalidChar [x, c] (genTextPosFrom s.buf s.pos))

/-- Modelled from the spec: `consume_either(set)`. -/
def Stream.consumeEither (s : Stream) (cs : List Char) : Except StreamError (Char × Stream) :=
  match s.rest with
  | [] => .error .UnexpectedEndOfStream
  | x :: _ =>
    if cs.contains x then .ok (x, s.advance 1)
    else .error (.InvalidChar (x :: cs) (genTextPosFrom s.buf s.pos))

/-- Modelled from the spec: `consume_quote` returns the quote character. -/
def Stream.consumeQuote (s : Stream) : Except StreamError (Char × Stream) :=
  s.consumeEither ['"', '\'']

/-- Modelled from the spec: `consume_eq` consumes optional space, `=`,
optional space. -/
def Stream.consumeEq (s : Stream) : Except StreamError Stream := do
  let s := s.skipAsciiSpaces
  let s ← s.consumeByte '='
  .ok s.skipAsciiSpaces

/-- Modelled from the spec: `consume_name`, the XML `Name` production:
a name-start character then zero or more name characters; fails if the
first character is not a valid name-start character. -/
def Stream.consumeName (s : Stream) : Except StreamError (StrSpan × Stream) :=
  match s.rest with
  | [] => .error .UnexpectedEndOfStream
  | c :: _ =>
    if isXmlNameStart c then
      let t := s.rest.takeWhile isXmlNameChar
      .ok (⟨s.pos, t⟩, s.advance t.length)
    else .error .InvalidName

/-- Modelled from the spec: `skip_name`. -/
def Stream.skipName (s : Stream) : Except StreamError Stream := do
  let (_, s) ← s.consumeName
  .ok s

/-- Splits a name at the first colon, if any. -/
def splitColon : List Char → Option (List Char × List Char)
  | [] => none
  | c :: cs =>
    if c == ':' then some ([], cs)
    else
      match splitColon cs with
      | some (p, l) => some (c :: p, l)
      | none => none

/-- Modelled from the spec: `consume_qname` reads a `Name`, optionally
split on the first `:` into prefix and local parts; no colon means an
empty-length prefix span positioned at the name's start and a local span
equal to the whole name. -/
def Stream.consumeQname (s : Stream) : Except StreamError ((StrSpan × StrSpan) × Stream) := do
  let (name, s') ← s.consumeName
  match splitColon name.text with
  | none => .ok ((⟨name.start, []⟩, name), s')
  | some (p, l) =>
    .ok ((⟨name.start, p⟩, ⟨name.start + p.length + 1, l⟩), s')

/-- Modelled from the spec: `slice_back(start)` is the span from `start`
to the current position. -/
def Stream.sliceBack (s : Stream) (start : Nat) : StrSpan :=
  ⟨start, (s.buf.drop start).take (s.pos - start)⟩

/-- Bool test for one sequence occurring inside another
(`str::contains` on the span content). -/
def containsSeq (pat : List Char) : List Char → Bool
  | [] => pat.isPrefixOf ([] : List Char)
  | c :: cs => pat.isPrefixOf (c :: cs) || containsSeq pat cs

/-! ## Grammar recognizers (Tokenizer impl, src/src/lib.rs) -/

/-- The `map_err_at!` macro (lib.rs lines 281-290): wraps a stream-level
failure into `Error::InvalidToken` whose position is resolved from the
entry position plus a (negative) lookahead delta, clamped to zero. -/
def mapErrAt (tt : TokenType) (s : Stream) (d : Int)
    (r : Except StreamError (Token × Stream)) : Except Error (Token × Stream) :=
  let start : Int := (s.pos : Int) + d
  let start := if start < 0 then 0 else start
  match r with
  | .ok v => .ok v
  | .error e => .error (.InvalidToken tt (genTextPosFrom s.buf start.toNat) (some e))

/-- `Tokenizer::parse_version_info` (lib.rs). -/
def parse_version_info (s : Stream) : Except StreamError (StrSpan × Stream) := do
  let s := s.skipAsciiSpaces
  let s ← s.skipString ['v', 'e', 'r', 's', 'i', 'o', 'n']
  let s ← s.consumeEq
  let (_, s) ← s.consumeQuote
  let start := s.pos
  let s ← s.skipString ['1', '.']
  let s := s.skipBytes (fun _ c => isXmlDigit c)
  let ver := s.sliceBack start
  let (_, s) ← s.consumeQuote
  .ok (ver, s)

/-- `Tokenizer::parse_encoding_decl` (lib.rs). -/
def parse_encoding_decl (s : Stream) : Except StreamError (Option StrSpan × Stream) :=
  let s := s.skipAsciiSpaces
  match s.skipString ['e', 'n', 'c', 'o', 'd', 'i', 'n', 'g'] with
  | .error _ => .ok (none, s)
  | .ok s => do
    let s ← s.consumeEq
    let (_, s) ← s.consumeQuote
    let (name, s) := s.consumeBytes (fun _ c =>
      isXmlLetter c || isXmlDigit c || c == '.' || c == '-' || c == '_')
    let (_, s) ← s.consumeQuote
    .ok (some name, s)

/-- `Tokenizer::parse_standalone` (lib.rs). -/
def parse_standalone (s : Stream) : Except StreamError (Option Bool × Stream) :=
  let s := s.skipAsciiSpaces
  match s.skipString ['s', 't', 'a', 'n', 'd', 'a', 'l', 'o', 'n', 'e'] with
  | .error _ => .ok (none, s)
  | .ok s => do
    let s ← s.consumeEq
    let (_, s) ← s.consumeQuote
    let start := s.pos
    let (nm, s) ← s.consumeName
    let flag ←
      if nm.text = ['y', 'e', 's'] then Except.ok true
      else if nm.text = ['n', 'o'] then Except.ok false
      else .error (.InvalidString [nm.text, ['y', 'e', 's'], ['n', 'o']]
        (genTextPosFrom s.buf start))
    let (_, s) ← s.consumeQuote
    .ok (some flag, s)

/-- `Tokenizer::parse_declaration_impl` (lib.rs). -/
def parse_declaration_impl (s : Stream) : Except StreamError (Token × Stream) := do
  let (version, s) ← parse_version_info s
  let (encoding, s) ← parse_encoding_decl s
  let (standalone, s) ← parse_standalone s
  let s := s.skipAsciiSpaces
  let s ← s.skipString ['?', '>']
  .ok (.Declaration version encoding standalone, s)

/-- `Tokenizer::parse_declaration` (lib.rs): position 6 bytes back, at `<?xml `. -/
def parse_declaration (s : Stream) : Except Error (Token × Stream) :=
  mapErrAt .XMLDecl s (-6) (parse_declaration_impl s)

/-- The scanning predicate of `Tokenizer::parse_comment`: stop at `-->`
or at a non-XML character. -/
def commentScanPred (rem : List Char) (c : Char) : Bool :=
  !(c == '-' && ['-', '-', '>'].isPrefixOf rem) && isXmlChar c

/-- `Tokenizer::parse_comment` (lib.rs): scan up to `-->`, reject a
literal `--` inside the body, require the terminating `-->`. -/
def parse_comment (s : Stream) : Except Error (Token × Stream) :=
  let start := s.pos - 4
  let (text, s) := s.consumeChars commentScanPred
  if containsSeq ['-', '-'] text.text then
    .error (.InvalidToken .Comment (genTextPosFrom s.buf start) none)
  else
    match s.skipString ['-', '-', '>'] with
    | .error _ => .error (.InvalidToken .Comment (genTextPosFrom s.buf start) none)
    | .ok s => .ok (.Comment text, s)

/-- `Tokenizer::parse_pi_impl` (lib.rs). -/
def parse_pi_impl (s : Stream) : Except StreamError (Token × Stream) := do
  let (target, s) ← s.consumeName
  let s := s.skipSpaces
  let (content, s) := s.consumeChars (fun rem c =>
    !(c == '?' && ['?', '>'].isPrefixOf rem) && isXmlChar c)
  let content := if !content.text.isEmpty then some content else none
  let s ← s.skipString ['?', '>']
  .ok (.ProcessingInstruction target content, s)

/-- `Tokenizer::parse_pi` (lib.rs): position 2 bytes back, at `<?`. -/
def parse_pi (s : Stream) : Except Error (Token × Stream) :=
  mapErrAt .PI s (-2) (parse_pi_impl s)

/-- `Tokenizer::parse_external_id` (lib.rs). -/
def parse_external_id (s : Stream) : Except StreamError (Option ExternalId × Stream) :=
  if s.startsWith ['S', 'Y', 'S', 'T', 'E', 'M'] || s.startsWith ['P', 'U', 'B', 'L', 'I', 'C'] then do
    let start := s.pos
    let s := s.advance 6
    let id := s.sliceBack start
    let s ← s.consumeSpaces
    let (quote, s) ← s.consumeQuote
    let (literal1, s) := s.consumeBytes (fun _ c => c != quote)
    let s ← s.consumeByte quote
    if id.text = ['S', 'Y', 'S', 'T', 'E', 'M'] then
      .ok (some (.System literal1), s)
    else do
      let s ← s.consumeSpaces
      let (quote2, s) ← s.consumeQuote
      let (literal2, s) := s.consumeBytes (fun _ c => c != quote2)
      let s ← s.consumeByte quote2
      .ok (some (.Public literal1 literal2), s)
  else .ok (none, s)

/-- `Tokenizer::parse_doctype_impl` (lib.rs). -/
def parse_doctype_impl (s : Stream) : Except StreamError (Token × Stream) := do
  let s ← s.consumeSpaces
  let (name, s) ← s.consumeName
  let s := s.skipSpaces
  let (id, s) ← parse_external_id s
  let s := s.skipSpaces
  let (c, s) ← s.consumeEither ['[', '>']
  if c == '[' then .ok (.DtdStart name id, s)
  else .ok (.EmptyDtd name id, s)

/-- `Tokenizer::parse_doctype` (lib.rs): position 9 bytes back, at `<!DOCTYPE`. -/
def parse_doctype (s : Stream) : Except Error (Token × Stream) :=
  mapErrAt .DoctypeDecl s (-9) (parse_doctype_impl s)

/-- `Tokenizer::parse_entity_def` (lib.rs). -/
def parse_entity_def (s : Stream) (is_ge : Bool) :
    Except StreamError (EntityDefinition × Stream) := do
  let c ← s.currByte
  if c == '"' || c == '\'' then do
    let (quote, s) ← s.consumeQuote
    let (value, s) := s.consumeBytes (fun _ c => c != quote)
    let s ← s.consumeByte quote
    .ok (.EntityValue value, s)
  else if c == 'S' || c == 'P' then do
    let (id?, s) ← parse_external_id s
    match id? with
    | some id =>
      if is_ge then do
        let s := s.skipSpaces
        if s.startsWith ['N', 'D', 'A', 'T', 'A'] then do
          let s ← s.skipString ['N', 'D', 'A', 'T', 'A']
          let s ← s.consumeSpaces
          let s ← s.skipName
          .ok (.ExternalId id, s)
        else .ok (.ExternalId id, s)
      else .ok (.ExternalId id, s)
    | none => .error .InvalidExternalID
  else
    .error (.InvalidChar [c, '"', '\'', 'S', 'P'] (genTextPosFrom s.buf s.pos))

/-- `Tokenizer::parse_entity_decl_impl` (lib.rs). -/
def parse_entity_decl_impl (s : Stream) : Except StreamError (Token × Stream) := do
  let s ← s.consumeSpaces
  let c ← s.currByte
  let (is_ge, s) ←
    if c == '%' then do
      let s ← s.consumeByte '%'
      let s ← s.consumeSpaces
      Except.ok (false, s)
    else Except.ok (true, s)
  let (name, s) ← s.consumeName
  let s ← s.consumeSpaces
  let (def_, s) ← parse_entity_def s is_ge
  let s := s.skipSpaces
  let s ← s.consumeByte '>'
  .ok (.EntityDeclaration name def_, s)

/-- `Tokenizer::parse_entity_decl` (lib.rs): position 8 bytes back, at `<!ENTITY`. -/
def parse_entity_decl (s : Stream) : Except Error (Token × Stream) :=
  mapErrAt .EntityDecl s (-8) (parse_entity_decl_impl s)

/-- `Tokenizer::consume_decl` (lib.rs): discard everything up to `>`. -/
def consume_decl (s : Stream) : Except StreamError Stream := do
  let s ← s.consumeSpaces
  let s := s.skipBytes (fun _ c => c != '>')
  let s ← s.consumeByte '>'
  .ok s

/-- `Tokenizer::parse_cdata_impl` (lib.rs). -/
def parse_cdata_impl (s : Stream) : Except StreamError (Token × Stream) := do
  let (text, s) := s.consumeBytes (fun rem c =>
    !(c == ']' && [']', ']', '>'].isPrefixOf rem))
  let s ← s.skipString [']', ']', '>']
  .ok (.Cdata text, s)

/-- `Tokenizer::parse_cdata` (lib.rs): position 9 bytes back, at `<![CDATA[`. -/
def parse_cdata (s : Stream) : Except Error (Token × Stream) :=
  mapErrAt .CDSect s (-9) (parse_cdata_impl s)

/-- `Tokenizer::parse_element_start_impl` (lib.rs). -/
def parse_element_start_impl (s : Stream) : Except StreamError (Token × Stream) := do
  let ((pfx, tag_name), s) ← s.consumeQname
  .ok (.ElementStart pfx tag_name, s)

/-- `Tokenizer::parse_element_start` (lib.rs): position 1 byte back, at `<`. -/
def parse_element_start (s : Stream) : Except Error (Token × Stream) :=
  mapErrAt .ElementStart s (-1) (parse_element_start_impl s)

/-- `Tokenizer::parse_close_element_impl` (lib.rs). -/
def parse_close_element_impl (s : Stream) : Except StreamError (Token × Stream) := do
  let ((pfx, tag_name), s) ← s.consumeQname
  let s := s.skipAsciiSpaces
  let s ← s.consumeByte '>'
  .ok (.ElementEnd (.Close pfx tag_name), s)

/-- `Tokenizer::parse_close_element` (lib.rs): position 2 bytes back, at `</`. -/
def parse_close_element (s : Stream) : Except Error (Token × Stream) :=
  mapErrAt .ElementClose s (-2) (parse_close_element_impl s)

/-- `Tokenizer::parse_attribute` (lib.rs): either `/>`, `>`, or one
`Name Eq AttValue`; a value containing a literal `<` is rejected. -/
def parse_attribute (s : Stream) : Except StreamError (Token × Stream) :=
  let s := s.skipAsciiSpaces
  match s.getCurrByte with
  | some '/' => do
    let s := s.advance 1
    let s ← s.consumeByte '>'
    .ok (.ElementEnd .Empty, s)
  | some '>' =>
    let s := s.advance 1
    .ok (.ElementEnd .Open, s)
  | _ => do
    let ((pfx, name), s) ← s.consumeQname
    let s ← s.consumeEq
    let (quote, s) ← s.consumeQuote
    let (value, s) := s.consumeBytes (fun _ c => c != quote)
    if value.text.contains '<' then
      .error .InvalidAttributeValue
    else do
      let s ← s.consumeByte quote
      let s := s.skipAsciiSpaces
      .ok (.Attribute (pfx, name) value, s)

/-- `Tokenizer::parse_text` (lib.rs): run of character data up to the
next `<`, classified after the fact as `Whitespaces` or `Text`. -/
def parse_text (s : Stream) : Except Error (Token × Stream) :=
  let (text, s) := s.consumeBytes (fun _ c => c != '<')
  let ts := Stream.mk text.text 0
  let ts := ts.skipSpaces
  if ts.atEnd then .ok (.Whitespaces text, s)
  else .ok (.Text text, s)

/-- `Tokenizer::parse_token_type` (lib.rs): lookahead-only classification
of the next construct. -/
def parse_token_type (s : Stream) (state : State) : Except StreamError (TokenType × Stream) := do
  let c1 ← s.currByte
  if c1 == '<' then do
    let s := s.advance 1
    let c2 ← s.currByte
    if c2 == '?' then
      if s.startsWith ['?', 'x', 'm', 'l', ' '] then .ok (.XMLDecl, s.advance 5)
      else .ok (.PI, s.advance 1)
    else if c2 == '!' then do
      let s := s.advance 1
      let c3 ← s.currByte
      if c3 == '-' && s.startsWith ['-', '-'] then .ok (.Comment, s.advance 2)
      else if c3 == 'D' && s.startsWith ['D', 'O', 'C', 'T', 'Y', 'P', 'E'] then
        .ok (.DoctypeDecl, s.advance 7)
      else if c3 == 'E' && s.startsWith ['E', 'L', 'E', 'M', 'E', 'N', 'T'] then
        .ok (.ElementDecl, s.advance 7)
      else if c3 == 'A' && s.startsWith ['A', 'T', 'T', 'L', 'I', 'S', 'T'] then
        .ok (.AttlistDecl, s.advance 7)
      else if c3 == 'E' && s.startsWith ['E', 'N', 'T', 'I', 'T', 'Y'] then
        .ok (.EntityDecl, s.advance 6)
      else if c3 == 'N' && s.startsWith ['N', 'O', 'T', 'A', 'T', 'I', 'O', 'N'] then
        .ok (.NotationDecl, s.advance 8)
      else if c3 == '[' && s.startsWith ['[', 'C', 'D', 'A', 'T', 'A', '['] then
        .ok (.CDSect, s.advance 7)
      else .ok (.Unknown, s)
    else if c2 == '/' then .ok (.ElementClose, s.advance 1)
    else .ok (.ElementStart, s)
  else if c1 == ']' && s.startsWith [']', '>'] then .ok (.DoctypeEnd, s.advance 2)
  else
    match state with
    | .Start | .AfterDtd | .AfterElements | .Dtd =>
      if s.startsWithSpace then .ok (.Whitespace, s) else .ok (.Unknown, s)
    | .Elements => .ok (.CharData, s)
    | _ => .ok (.Unknown, s)

/-! ## The state machine driver (lib.rs `parse_next_impl` and `Iterator::next`) -/

/-- The UTF-8 BOM; the 3-byte sequence `EF BB BF` decodes to this single
character in the character model. -/
def bomChar : Char := Char.ofNat 0xFEFF

/-- The `gen_err!` macro body (lib.rs lines 330-339). -/
def genErrTok (tt : TokenType) (pos : TextPos) : Error :=
  if tt == .Unknown then .UnknownToken pos
  else .UnexpectedToken tt pos

/-- Propagates a recognizer result out of `parse_next_impl`: a success
carries the advanced stream, a failure is reported as-is (the caller
forces the cursor to the end on any error). -/
def dispatch (s : Stream) (r : Except Error (Token × Stream)) :
    Option (Except Error Token) × Stream :=
  match r with
  | .ok (tok, s') => (some (.ok tok), s')
  | .error e => (some (.error e), s)

/-- `Tokenizer::parse_next_impl` (lib.rs lines 304-483).  The Rust code
recurses after skipping whitespace (and after discarding an
ELEMENT/ATTLIST/NOTATION declaration); the recursion strictly advances
the cursor, so a fuel of `buf.length + 1` (supplied by `Tokenizer.next`)
never runs out. -/
def parse_next_impl : Nat → Stream → State → Option (Except Error Token) × Stream
  | 0, s, _ => (none, s)
  | fuel + 1, s0, state =>
    if s0.atEnd then (none, s0)
    else
      let start := s0.pos
      -- Skip UTF-8 BOM.
      let s := if start == 0 && s0.startsWith [bomChar] then s0.advance 1 else s0
      match state with
      | .Start =>
        match parse_token_type s state with
        | .error _ => (some (.error (.UnknownToken (genTextPosFrom s.buf start))), s)
        | .ok (token_type, s) =>
          match token_type with
          | .XMLDecl =>
            -- XML declaration allowed only at the start of the document.
            if start == 0 then dispatch s (parse_declaration s)
            else (some (.error (genErrTok token_type (genTextPosFrom s.buf start))), s)
          | .Comment => dispatch s (parse_comment s)
          | .PI => dispatch s (parse_pi s)
          | .DoctypeDecl => dispatch s (parse_doctype s)
          | .ElementStart => dispatch s (parse_element_start s)
          | .Whitespace => parse_next_impl fuel s.skipSpaces state
          | _ => (some (.error (genErrTok token_type (genTextPosFrom s.buf start))), s)
      | .Dtd =>
        match parse_token_type s state with
        | .error _ => (some (.error (.UnknownToken (genTextPosFrom s.buf start))), s)
        | .ok (token_type, s) =>
          match token_type with
          | .ElementDecl | .NotationDecl | .AttlistDecl =>
            match consume_decl s with
            | .error _ => (some (.error (genErrTok token_type (genTextPosFrom s.buf start))), s)
            | .ok s => parse_next_impl fuel s state
          | .EntityDecl => dispatch s (parse_entity_decl s)
          | .Comment => dispatch s (parse_comment s)
          | .PI => dispatch s (parse_pi s)
          | .DoctypeEnd => (some (.ok .DtdEnd), s)
          | .Whitespace => parse_next_impl fuel s.skipSpaces state
          | _ => (some (.error (genErrTok token_type (genTextPosFrom s.buf start))), s)
      | .AfterDtd =>
        match parse_token_type s state with
        | .error _ => (some (.error (.UnknownToken (genTextPosFrom s.buf start))), s)
        | .ok (token_type, s) =>
          match token_type with
          | .Comment => dispatch s (parse_comment s)
          | .PI => dispatch s (parse_pi s)
          | .ElementStart => dispatch s (parse_element_start s)
          | .Whitespace => parse_next_impl fuel s.skipSpaces state
          | _ => (some (.error (genErrTok token_type (genTextPosFrom s.buf start))), s)
      | .Elements =>
        match parse_token_type s state with
        | .error _ => (some (.error (.UnknownToken (genTextPosFrom s.buf start))), s)
        | .ok (token_type, s) =>
          match token_type with
          | .ElementStart => dispatch s (parse_element_start s)
          | .ElementClose => dispatch s (parse_close_element s)
          | .CDSect => dispatch s (parse_cdata s)
          | .PI => dispatch s (parse_pi s)
          | .Comment => dispatch s (parse_comment s)
          | .CharData => dispatch s (parse_text s)
          | _ => (some (.error (genErrTok token_type (genTextPosFrom s.buf start))), s)
      | .Attributes =>
        match parse_attribute s with
        | .ok (tok, s') => (some (.ok tok), s')
        | .error e =>
          (some (.error (.InvalidToken .Attribute (genTextPosFrom s.buf start) (some e))), s)
      | .AfterElements =>
        match parse_token_type s state with
        | .error _ => (some (.error (.UnknownToken (genTextPosFrom s.buf start))), s)
        | .ok (token_type, s) =>
          match token_type with
          | .Comment => dispatch s (parse_comment s)
          | .PI => dispatch s (parse_pi s)
          | .Whitespace => parse_next_impl fuel s.skipSpaces state
          | _ => (some (.error (genErrTok token_type (genTextPosFrom s.buf start))), s)
      | .End => (none, s)

/-- `Tokenizer` (lib.rs). -/
structure Tokenizer where
  stream : Stream
  state : State
  depth : Nat
  fragment_parsing : Bool
deriving DecidableEq, Repr

/-- `From<&str> for Tokenizer` (lib.rs), on the character-list model. -/
def Tokenizer.fromList (buf : List Char) : Tokenizer :=
  ⟨⟨buf, 0⟩, .Start, 0, false⟩

/-- `Tokenizer::enable_fragment_mode` (lib.rs). -/
def Tokenizer.enable_fragment_mode (t : Tokenizer) : Tokenizer :=
  { t with state := .Elements, fragment_parsing := true }

/-- The state/depth bookkeeping that `Iterator::next` (lib.rs lines
951-987) performs after a successful token. -/
def applyToken (t : Tokenizer) (tok : Token) (s' : Stream) : Tokenizer :=
  match tok with
  | .ElementStart _ _ => { t with stream := s', state := .Attributes }
  | .ElementEnd e =>
    let depth :=
      match e with
      | .Open => t.depth + 1
      | .Close _ _ => if 0 < t.depth then t.depth - 1 else t.depth
      | .Empty => t.depth
    if depth == 0 && !t.fragment_parsing then
      { t with stream := s', depth := depth, state := .AfterElements }
    else
      { t with stream := s', depth := depth, state := .Elements }
  | .DtdStart _ _ => { t with stream := s', state := .Dtd }
  | .EmptyDtd _ _ => { t with stream := s', state := .AfterDtd }
  | .DtdEnd => { t with stream := s', state := .AfterDtd }
  | _ => { t with stream := s' }

/-- `Iterator::next for Tokenizer` (lib.rs lines 943-990): one pull. -/
def Tokenizer.next (t : Tokenizer) : Option (Except Error Token) × Tokenizer :=
  if t.stream.atEnd || t.state == .End then
    (none, { t with state := .End })
  else
    match parse_next_impl (t.stream.buf.length + 1) t.stream t.state with
    | (some (.ok tok), s') => (some (.ok tok), applyToken t tok s')
    | (some (.error e), s') =>
      (some (.error e), { t with stream := s'.jumpToEnd, state := .End })
    | (none, s') => (none, { t with stream := s' })

/-- Drives the iterator until it yields nothing, collecting the pulled
results in order. -/
def collectTokens : Nat → Tokenizer → List (Except Error Token)
  | 0, _ => []
  | n + 1, t =>
    match t.next with
    | (none, _) => []
    | (some r, t') => r :: collectTokens n t'

instance {ε α : Type} [DecidableEq ε] [DecidableEq α] : DecidableEq (Except ε α) :=
  fun a b =>
    match a, b with
    | .ok x, .ok y =>
      if h : x = y then .isTrue (by rw [h]) else .isFalse (by simp [h])
    | .error x, .error y =>
      if h : x = y then .isTrue (by rw [h]) else .isFalse (by simp [h])
    | .ok _, .error _ => .isFalse (by simp)
    | .error _, .ok _ => .isFalse (by simp)

/-! ## Basic cursor lemmas -/

theorem Stream.pos_advance (s : Stream) (n : Nat) : (s.advance n).pos = s.pos + n := rfl

theorem Stream.buf_advance (s : Stream) (n : Nat) : (s.advance n).buf = s.buf := rfl

theorem Stream.rest_advance (s : Stream) (n : Nat) : (s.advance n).rest = s.rest.drop n := by
  simp [Stream.rest, Stream.advance, List.drop_drop, Nat.add_comm]

theorem Stream.advance_advance (s : Stream) (m n : Nat) :
    (s.advance m).advance n = s.advance (m + n) := by
  cases s; simp [Stream.advance, Nat.add_assoc]

theorem Stream.advance_zero (s : Stream) : s.advance 0 = s := by
  cases s; simp [Stream.advance]

theorem Stream.pos_skipSpaces (s : Stream) :
    s.skipSpaces.pos = s.pos + (s.rest.takeWhile isXmlSpace).length := rfl

/-! ## Claims about the pull loop (`Iterator::next`) -/

/-- **C1.** A pull that returns an error is terminal: the cursor is forced
to the buffer end, the state becomes `End`, and every tokenizer whose
state is `End` yields nothing and stays unchanged, so every subsequent
pull returns `none`. -/
theorem claim_C1_error_is_terminal (t t' : Tokenizer) (e : Error)
    (h : t.next = (some (.error e), t')) :
    t'.stream.pos = t'.stream.buf.length ∧ t'.state = .End ∧
    t'.next = (none, t') ∧
    (∀ u : Tokenizer, u.state = .End → u.next = (none, u)) := by
  have hEnd : ∀ u : Tokenizer, u.state = .End → u.next = (none, u) := by
    intro u hu
    cases u
    simp_all [Tokenizer.next]
  unfold Tokenizer.next at h
  split at h
  · simp at h
  · split at h
    · simp at h
    · rename_i s' heq
      rw [Prod.mk.injEq] at h
      obtain ⟨-, h2⟩ := h
      subst h2
      refine ⟨rfl, rfl, ?_, hEnd⟩
      exact hEnd _ rfl
    · simp at h

/-- **C1 witness**: the third pull of `"<a/><a/>"` errors; the theorem
applies to it. -/
theorem claim_C1_error_is_terminal_witness :
    ((Tokenizer.fromList ['<', 'a', '/', '>', '<', 'a', '/', '>']).next.2.next.2.next.2.stream.pos
      = (Tokenizer.fromList ['<', 'a', '/', '>', '<', 'a', '/', '>']).next.2.next.2.next.2.stream.buf.length) ∧
    ((Tokenizer.fromList ['<', 'a', '/', '>', '<', 'a', '/', '>']).next.2.next.2.next.2.state = .End) ∧
    ((Tokenizer.fromList ['<', 'a', '/', '>', '<', 'a', '/', '>']).next.2.next.2.next.2.next
      = (none, (Tokenizer.fromList ['<', 'a', '/', '>', '<', 'a', '/', '>']).next.2.next.2.next.2)) ∧
    (∀ u : Tokenizer, u.state = .End → u.next = (none, u)) :=
  claim_C1_error_is_terminal
    ((Tokenizer.fromList ['<', 'a', '/', '>', '<', 'a', '/', '>']).next.2.next.2)
    ((Tokenizer.fromList ['<', 'a', '/', '>', '<', 'a', '/', '>']).next.2.next.2.next.2)
    (.UnexpectedToken .ElementStart ⟨1, 5⟩) (by decide)

theorem applyToken_ee_frag (t : Tokenizer) (e : ElementEnd) (s' : Stream) :
    (applyToken t (.ElementEnd e) s').fragment_parsing = t.fragment_parsing := by
  cases e <;> simp only [applyToken] <;> split <;> (try split) <;> rfl

theorem applyToken_ee_depth (t : Tokenizer) (e : ElementEnd) (s' : Stream) :
    (applyToken t (.ElementEnd e) s').depth =
      (match e with
        | .Open => t.depth + 1
        | .Close _ _ => if 0 < t.depth then t.depth - 1 else t.depth
        | .Empty => t.depth) := by
  cases e with
  | Open => simp only [applyToken]; split <;> rfl
  | Close a b =>
    simp only [applyToken]
    by_cases hd : 0 < t.depth
    · simp only [if_pos hd]; split <;> rfl
    · simp only [if_neg hd]; split <;> rfl
  | Empty => simp only [applyToken]; split <;> rfl

theorem applyToken_ee_state (t : Tokenizer) (e : ElementEnd) (s' : Stream) :
    (applyToken t (.ElementEnd e) s').state =
      (if (applyToken t (.ElementEnd e) s').depth == 0 && !t.fragment_parsing
        then State.AfterElements else State.Elements) := by
  cases e <;> simp only [applyToken] <;> split <;> (try split) <;> simp_all

/-- **C5.** A pull returning `Ok(ElementEnd e)` updates the depth counter
exactly as specified (`Open` increments, `Close` saturating-decrements,
`Empty` leaves it), and the resulting state is `AfterElements` exactly
when the new depth is zero with fragment mode off, `Elements` otherwise. -/
theorem claim_C5_depth_tracking (t t' : Tokenizer) (e : ElementEnd)
    (h : t.next = (some (.ok (.ElementEnd e)), t')) :
    t'.fragment_parsing = t.fragment_parsing ∧
    (e = .Open → t'.depth = t.depth + 1) ∧
    (∀ a b, e = .Close a b → (0 < t.depth → t'.depth = t.depth - 1) ∧
      (t.depth = 0 → t'.depth = 0)) ∧
    (e = .Empty → t'.depth = t.depth) ∧
    t'.state = (if t'.depth = 0 ∧ t.fragment_parsing = false
      then State.AfterElements else State.Elements) := by
  unfold Tokenizer.next at h
  split at h
  · simp at h
  · split at h
    · rename_i tok s' heq
      rw [Prod.mk.injEq] at h
      obtain ⟨h1, h2⟩ := h
      rw [Option.some.injEq, Except.ok.injEq] at h1
      subst h1
      subst h2
      refine ⟨applyToken_ee_frag t e s', ?_, ?_, ?_, ?_⟩
      · intro he; subst he; simp [applyToken_ee_depth]
      · intro a b he; subst he
        rw [applyToken_ee_depth]
        constructor <;> intro hd <;> simp_all
      · intro he; subst he; simp [applyToken_ee_depth]
      · rw [applyToken_ee_state]
        by_cases h1 : (applyToken t (.ElementEnd e) s').depth = 0 <;>
          by_cases h2 : t.fragment_parsing <;>
            simp [h1, h2]
    · simp at h
    · simp at h

/-- **C5 witness**: the second pull of `"<a/>"` yields
`ElementEnd::Empty`; the theorem applies to it. -/
theorem claim_C5_depth_tracking_witness :
    ((Tokenizer.fromList ['<', 'a', '/', '>']).next.2.next.2.fragment_parsing
      = (Tokenizer.fromList ['<', 'a', '/', '>']).next.2.fragment_parsing) ∧
    ((ElementEnd.Empty = .Open →
      (Tokenizer.fromList ['<', 'a', '/', '>']).next.2.next.2.depth
        = (Tokenizer.fromList ['<', 'a', '/', '>']).next.2.depth + 1)) ∧
    (∀ a b, ElementEnd.Empty = .Close a b →
      (0 < (Tokenizer.fromList ['<', 'a', '/', '>']).next.2.depth →
        (Tokenizer.fromList ['<', 'a', '/', '>']).next.2.next.2.depth
          = (Tokenizer.fromList ['<', 'a', '/', '>']).next.2.depth - 1) ∧
      ((Tokenizer.fromList ['<', 'a', '/', '>']).next.2.depth = 0 →
        (Tokenizer.fromList ['<', 'a', '/', '>']).next.2.next.2.depth = 0)) ∧
    ((ElementEnd.Empty = .Empty →
      (Tokenizer.fromList ['<', 'a', '/', '>']).next.2.next.2.depth
        = (Tokenizer.fromList ['<', 'a', '/', '>']).next.2.depth)) ∧
    ((Tokenizer.fromList ['<', 'a', '/', '>']).next.2.next.2.state
      = (if (Tokenizer.fromList ['<', 'a', '/', '>']).next.2.next.2.depth = 0 ∧
            (Tokenizer.fromList ['<', 'a', '/', '>']).next.2.fragment_parsing = false
          then State.AfterElements else State.Elements)) :=
  claim_C5_depth_tracking _ _ .Empty (by decide)

/-- **C3.** Tokenizing `"<a/><a/>"` without fragment mode yields exactly
`ElementStart a`, `ElementEnd::Empty`, then
`UnexpectedToken(ElementStart)` at the second `<` (line 1, column 5):
only one top-level element is permitted. -/
theorem claim_C3_two_roots_error :
    collectTokens 10 (Tokenizer.fromList ['<', 'a', '/', '>', '<', 'a', '/', '>']) =
      [ .ok (.ElementStart ⟨1, []⟩ ⟨1, ['a']⟩),
        .ok (.ElementEnd .Empty),
        .error (.UnexpectedToken .ElementStart ⟨1, 5⟩) ] := by
  decide

/-- **C4.** With fragment mode enabled, `"<a/><b/>"` tokenizes both
sibling elements without error, and after the first `ElementEnd` the
state is back to `Elements` (not `AfterElements`). -/
theorem claim_C4_fragment_mode :
    collectTokens 10 ((Tokenizer.fromList ['<', 'a', '/', '>', '<', 'b', '/', '>']).enable_fragment_mode) =
      [ .ok (.ElementStart ⟨1, []⟩ ⟨1, ['a']⟩),
        .ok (.ElementEnd .Empty),
        .ok (.ElementStart ⟨5, []⟩ ⟨5, ['b']⟩),
        .ok (.ElementEnd .Empty) ] ∧
    ((Tokenizer.fromList ['<', 'a', '/', '>', '<', 'b', '/', '>']).enable_fragment_mode.next.2.next.2.state
      = State.Elements) := by
  constructor <;> decide

/-- **C10 counterexample.** `"<?xmla?>"` begins with `<?xml` not followed
by a space, yet its pull yields a ProcessingInstruction whose target is
`xmla`, not `xml` as the claim demands. -/
theorem claim_C10_counterexample :
    (Tokenizer.fromList ['<', '?', 'x', 'm', 'l', 'a', '?', '>']).next.1
      = some (.ok (.ProcessingInstruction ⟨2, ['x', 'm', 'l', 'a']⟩ none)) ∧
    (['x', 'm', 'l', 'a'] ≠ ['x', 'm', 'l']) := by
  constructor <;> decide

/-! ## Scanning lemmas -/

theorem spanWhileP_append (p : List Char → Char → Bool) (xs : List Char) :
    (spanWhileP p xs).1 ++ (spanWhileP p xs).2 = xs := by
  induction xs with
  | nil => rfl
  | cons c cs ih =>
    simp only [spanWhileP]
    split
    · simpa using ih
    · rfl

theorem spanWhileP_const (p : Char → Bool) (xs : List Char) :
    spanWhileP (fun _ c => p c) xs = (xs.takeWhile p, xs.dropWhile p) := by
  induction xs with
  | nil => rfl
  | cons c cs ih =>
    simp only [spanWhileP, List.takeWhile, List.dropWhile]
    split <;> rename_i hp <;> simp [hp, ih]

theorem dropWhile_isEmpty_eq_all (p : Char → Bool) (l : List Char) :
    (l.dropWhile p).isEmpty = l.all p := by
  induction l with
  | nil => rfl
  | cons c cs ih =>
    simp only [List.dropWhile, List.all_cons]
    by_cases hp : p c <;> simp [hp, ih]

theorem drop_takeWhile_length (p : Char → Bool) (l : List Char) :
    l.drop (l.takeWhile p).length = l.dropWhile p := by
  induction l with
  | nil => rfl
  | cons c cs ih =>
    simp only [List.takeWhile, List.dropWhile]
    by_cases hp : p c <;> simp [hp, ih]

theorem takeWhile_append_stop (p : Char → Bool) (v : List Char) (x : Char) (r : List Char)
    (hall : ∀ c ∈ v, p c = true) (hx : p x = false) :
    ((v ++ x :: r).takeWhile p = v) ∧ ((v ++ x :: r).dropWhile p = x :: r) := by
  induction v with
  | nil => simp [List.takeWhile, List.dropWhile, hx]
  | cons c cs ih =>
    have hc : p c = true := hall c (by simp)
    have ih' := ih (fun d hd => hall d (by simp [hd]))
    simp [List.takeWhile, List.dropWhile, hc, ih'.1, ih'.2]

/-! ## Inversion helpers for `Except` runs -/

theorem bind_ok {ε α β : Type} {x : Except ε α} {f : α → Except ε β} {b : β}
    (h : (x >>= f) = .ok b) : ∃ a, x = .ok a ∧ f a = .ok b := by
  cases x with
  | ok a => exact ⟨a, rfl, h⟩
  | error e => simp [Bind.bind, Except.bind] at h

theorem mapErrAt_ok {tt : TokenType} {s : Stream} {d : Int}
    {r : Except StreamError (Token × Stream)} {v : Token × Stream}
    (h : mapErrAt tt s d r = .ok v) : r = .ok v := by
  unfold mapErrAt at h
  cases r with
  | ok w => simpa using h
  | error e => simp at h

theorem dispatch_ok {s : Stream} {r : Except Error (Token × Stream)}
    {tok : Token} {s' : Stream}
    (h : dispatch s r = (some (.ok tok), s')) : r = .ok (tok, s') := by
  unfold dispatch at h
  cases r with
  | ok w =>
    obtain ⟨t1, t2⟩ := w
    simp only [Prod.mk.injEq, Option.some.injEq, Except.ok.injEq] at h
    simp [h.1, h.2]
  | error e => simp at h

theorem dispatch_error {s : Stream} {r : Except Error (Token × Stream)}
    {e : Error} {s' : Stream}
    (h : dispatch s r = (some (.error e), s')) : r = .error e := by
  unfold dispatch at h
  cases r with
  | ok w => obtain ⟨t1, t2⟩ := w; simp at h
  | error e0 => simp only [Prod.mk.injEq, Option.some.injEq, Except.error.injEq] at h; simp [h.1]

/-! ## Shape of each recognizer's successful token -/

theorem parse_comment_ok_shape {s s' : Stream} {tok : Token}
    (h : parse_comment s = .ok (tok, s')) : ∃ sp, tok = .Comment sp := by
  unfold parse_comment at h
  split at h
  split at h
  · simp at h
  · split at h
    · simp at h
    · rw [Except.ok.injEq, Prod.mk.injEq] at h
      exact ⟨_, h.1.symm⟩

theorem parse_pi_ok_shape {s s' : Stream} {tok : Token}
    (h : parse_pi s = .ok (tok, s')) : ∃ a b, tok = .ProcessingInstruction a b := by
  replace h := mapErrAt_ok h
  unfold parse_pi_impl at h
  obtain ⟨⟨target, s1⟩, h1, h⟩ := bind_ok h
  dsimp only at h
  rcases hc : (s1.skipSpaces.consumeChars fun rem c =>
      !(c == '?' && ['?', '>'].isPrefixOf rem) && isXmlChar c) with ⟨content, s2⟩
  rw [hc] at h
  dsimp only at h
  obtain ⟨s3, h2, h⟩ := bind_ok h
  rw [Except.ok.injEq, Prod.mk.injEq] at h
  exact ⟨_, _, h.1.symm⟩

theorem parse_doctype_ok_shape {s s' : Stream} {tok : Token}
    (h : parse_doctype s = .ok (tok, s')) :
    (∃ a b, tok = .DtdStart a b) ∨ (∃ a b, tok = .EmptyDtd a b) := by
  replace h := mapErrAt_ok h
  unfold parse_doctype_impl at h
  obtain ⟨s1, h1, h⟩ := bind_ok h
  obtain ⟨⟨name, s2⟩, h2, h⟩ := bind_ok h
  dsimp only at h
  obtain ⟨⟨id, s3⟩, h3, h⟩ := bind_ok h
  dsimp only at h
  obtain ⟨⟨c, s4⟩, h4, h⟩ := bind_ok h
  dsimp only at h
  split at h
  · rw [Except.ok.injEq, Prod.mk.injEq] at h
    exact .inl ⟨_, _, h.1.symm⟩
  · rw [Except.ok.injEq, Prod.mk.injEq] at h
    exact .inr ⟨_, _, h.1.symm⟩

theorem parse_element_start_ok_shape {s s' : Stream} {tok : Token}
    (h : parse_element_start s = .ok (tok, s')) : ∃ a b, tok = .ElementStart a b := by
  replace h := mapErrAt_ok h
  unfold parse_element_start_impl at h
  obtain ⟨⟨⟨pfx, nm⟩, s1⟩, h1, h⟩ := bind_ok h
  dsimp only at h
  rw [Except.ok.injEq, Prod.mk.injEq] at h
  exact ⟨_, _, h.1.symm⟩

/-! ## Claim C9: character data recognition never fails -/

/-- **C9.** `parse_text` always succeeds: the token's span is exactly the
maximal run of characters up to the next `<` (or the end of input), and
the token is `Whitespaces` when the whole run is XML whitespace, `Text`
otherwise; no character-class validation is applied to the run. -/
theorem claim_C9_text_never_fails (s : Stream) :
    parse_text s = .ok
      ((if (s.rest.takeWhile (fun c => c != '<')).all isXmlSpace
        then Token.Whitespaces ⟨s.pos, s.rest.takeWhile (fun c => c != '<')⟩
        else Token.Text ⟨s.pos, s.rest.takeWhile (fun c => c != '<')⟩),
       s.advance (s.rest.takeWhile (fun c => c != '<')).length) := by
  unfold parse_text Stream.consumeBytes
  rw [spanWhileP_const]
  simp only [Stream.skipSpaces, Stream.atEnd, Stream.advance, Stream.rest, List.drop_zero,
    Nat.zero_add, drop_takeWhile_length, dropWhile_isEmpty_eq_all]
  split <;> rename_i hcond <;> simp_all

/-! ## Claim C8: XML declaration only as the very first construct -/

set_option maxHeartbeats 1600000 in
/-- The classifier returns its input stream unchanged when it reports
`Whitespace` (that outcome arises only in the fall-through arm, which
does not advance). -/
theorem parse_token_type_ws {s s2 : Stream} {st : State}
    (h : parse_token_type s st = .ok (.Whitespace, s2)) : s2 = s := by
  unfold parse_token_type at h
  simp only [Bind.bind, Except.bind] at h
  repeat' split at h
  all_goals simp_all

/-- In the `Start` state, an `Ok(Declaration ..)` outcome of
`parse_next_impl` is only possible when the pull started at offset 0:
every recognizer other than `parse_declaration` yields a different token
constructor, and the whitespace-skipping recursion strictly advances the
cursor away from offset 0. -/
theorem parse_next_impl_decl_pos_zero (fuel : Nat) :
    ∀ (s s' : Stream) (v : StrSpan) (en : Option StrSpan) (st : Option Bool),
      parse_next_impl fuel s .Start = (some (.ok (.Declaration v en st)), s') →
      s.pos = 0 := by
  induction fuel with
  | zero =>
    intro s s' v en st h
    simp [parse_next_impl] at h
  | succ n ih =>
    intro s s' v en st h
    by_cases hp : s.pos = 0
    · exact hp
    · exfalso
      rw [parse_next_impl] at h
      split at h
      · simp at h
      · have hb : (s.pos == 0) = false := by simpa using hp
        simp only [hb, Bool.false_and, Bool.false_eq_true, if_false] at h
        split at h
        · simp at h
        · rename_i tt s2 heq2
          split at h
          · -- XMLDecl: requires start == 0, excluded by hb
            simp at h
          · -- Comment
            obtain ⟨sp, hsp⟩ := parse_comment_ok_shape (dispatch_ok h)
            simp at hsp
          · -- PI
            obtain ⟨a, b, hsp⟩ := parse_pi_ok_shape (dispatch_ok h)
            simp at hsp
          · -- DOCTYPE
            rcases parse_doctype_ok_shape (dispatch_ok h) with ⟨a, b, hsp⟩ | ⟨a, b, hsp⟩ <;>
              simp at hsp
          · -- ElementStart
            obtain ⟨a, b, hsp⟩ := parse_element_start_ok_shape (dispatch_ok h)
            simp at hsp
          · -- Whitespace: recursion cannot return to offset 0
            have h0 : s2.skipSpaces.pos = 0 := ih _ _ _ _ _ h
            have hs2 : s2 = s := parse_token_type_ws heq2
            rw [hs2, Stream.pos_skipSpaces] at h0
            omega
          · simp at h

/-- **C8.** An XML declaration is parsed into a `Declaration` token only
when its pull starts at byte offset 0 (a BOM-skipping pull still has
start offset 0); `<?xml ` classified in the `Start` state at any later
position produces `UnexpectedToken(XMLDecl)` at the construct's start. -/
theorem claim_C8_decl_only_at_start :
    (∀ t : Tokenizer, t.state = .Start → t.stream.pos ≠ 0 →
      (['<', '?', 'x', 'm', 'l', ' '].isPrefixOf t.stream.rest) = true →
      t.next.1 = some (.error (.UnexpectedToken .XMLDecl
        (genTextPosFrom t.stream.buf t.stream.pos)))) ∧
    (∀ (t t' : Tokenizer) (v : StrSpan) (en : Option StrSpan) (st : Option Bool),
      t.state = .Start →
      t.next = (some (.ok (.Declaration v en st)), t') →
      t.stream.pos = 0) := by
  constructor
  · intro t hstate hpos hpre
    obtain ⟨tl, htl⟩ := List.isPrefixOf_iff_prefix.1 hpre
    simp only [List.cons_append, List.nil_append] at htl
    have hb : (t.stream.pos == 0) = false := by simpa using hpos
    have hclass : parse_token_type t.stream .Start = .ok (.XMLDecl, t.stream.advance 6) := by
      unfold parse_token_type
      simp [Stream.currByte, Stream.startsWith, Stream.rest_advance, ← htl,
        List.isPrefixOf, Bind.bind, Except.bind, Stream.advance_advance]
    unfold Tokenizer.next
    have hgate : (t.stream.atEnd || t.state == State.End) = false := by
      simp [Stream.atEnd, ← htl, hstate]
    rw [hgate]
    simp only [Bool.false_eq_true, if_false]
    rw [hstate, parse_next_impl]
    have hne : t.stream.atEnd = false := by simp [Stream.atEnd, ← htl]
    rw [hne]
    simp only [Bool.false_eq_true, if_false, hb, Bool.false_and, hclass]
    simp [genErrTok, Stream.buf_advance]
  · intro t t' v en st hstate h
    unfold Tokenizer.next at h
    split at h
    · simp at h
    · split at h
      · rename_i tok s' heq
        rw [Prod.mk.injEq, Option.some.injEq, Except.ok.injEq] at h
        obtain ⟨h1, -⟩ := h
        subst h1
        rw [hstate] at heq
        exact parse_next_impl_decl_pos_zero _ _ _ _ _ _ heq
      · simp at h
      · simp at h

/-! ## Comment scanning lemmas (for claim C6) -/

theorem containsSeq_cons_false {pat : List Char} {c : Char} {cs : List Char}
    (h : containsSeq pat (c :: cs) = false) :
    pat.isPrefixOf (c :: cs) = false ∧ containsSeq pat cs = false := by
  simpa [containsSeq, Bool.or_eq_false_iff] using h

theorem contains_of_prefix_suffix (pat t r : List Char) (h : pat.isPrefixOf r = true) :
    containsSeq pat (t ++ r) = true := by
  induction t with
  | nil =>
    cases r with
    | nil => simpa [containsSeq] using h
    | cons c cs => simp [containsSeq, h]
  | cons a t ih => simp [containsSeq, ih]

theorem spanWhileP_snd_drop (p : List Char → Char → Bool) (xs : List Char) :
    xs.drop (spanWhileP p xs).1.length = (spanWhileP p xs).2 := by
  induction xs with
  | nil => rfl
  | cons c cs ih =>
    simp only [spanWhileP]
    split
    · simpa using ih
    · simp

/-- When the body has no `--` and only XML characters, the comment scan
consumes exactly the body and stops at the terminating `-->`. -/
theorem comm_scan_clean (body rest : List Char)
    (h1 : containsSeq ['-', '-'] body = false)
    (h2 : body.all isXmlChar = true) :
    spanWhileP commentScanPred (body ++ '-' :: '-' :: '>' :: rest) =
      (body, '-' :: '-' :: '>' :: rest) := by
  induction body with
  | nil =>
    simp [spanWhileP, commentScanPred, List.isPrefixOf]
  | cons c cs ih =>
    have h1' := containsSeq_cons_false h1
    have h2' : isXmlChar c = true ∧ cs.all isXmlChar = true := by simpa using h2
    have hX : (c == '-' && List.isPrefixOf ['-', '-', '>']
        (c :: (cs ++ '-' :: '-' :: '>' :: rest))) = false := by
      by_cases hcc : c = '-'
      · subst hcc
        simp only [beq_self_eq_true, Bool.true_and]
        cases cs with
        | nil => simp [List.isPrefixOf]
        | cons c2 cs2 =>
          have hc2 : ('-' == c2) = false := by
            have := h1'.1
            simpa [List.isPrefixOf] using this
          simp [List.isPrefixOf, hc2]
      · simp [beq_eq_false_iff_ne.2 hcc]
    have hpred : commentScanPred (c :: (cs ++ '-' :: '-' :: '>' :: rest)) c = true := by
      unfold commentScanPred
      rw [hX, h2'.1]
      rfl
    rw [List.cons_append, spanWhileP, if_pos hpred, ih h1'.2 h2'.2]

/-- When the (canonical) body contains `--` but no `-->`, the comment
scan either keeps a `--` inside the consumed text or does not stop at a
`-->`; in both cases `parse_comment` reports an error. -/
theorem comm_scan_err (body rest : List Char)
    (h1 : containsSeq ['-', '-'] body = true)
    (h2 : containsSeq ['-', '-', '>'] body = false) :
    containsSeq ['-', '-'] (spanWhileP commentScanPred (body ++ '-' :: '-' :: '>' :: rest)).1 = true ∨
    (['-', '-', '>'].isPrefixOf (spanWhileP commentScanPred (body ++ '-' :: '-' :: '>' :: rest)).2) = false := by
  induction body with
  | nil => simp [containsSeq, List.isPrefixOf] at h1
  | cons c cs ih =>
    have h2' := containsSeq_cons_false h2
    rw [List.cons_append, spanWhileP]
    by_cases hp : commentScanPred (c :: (cs ++ '-' :: '-' :: '>' :: rest)) c = true
    · rw [if_pos hp]
      by_cases hpre2 : (['-', '-'].isPrefixOf (c :: cs)) = true
      · -- the body begins with `--`
        cases cs with
        | nil => simp [List.isPrefixOf] at hpre2
        | cons c2 cs2 =>
          have hcc : c = '-' ∧ c2 = '-' := by
            simp [List.isPrefixOf] at hpre2
            exact ⟨hpre2.1.symm, hpre2.2.symm⟩
          obtain ⟨hc, hc2⟩ := hcc
          subst hc
          subst hc2
          rw [List.cons_append, spanWhileP]
          by_cases hp2 : commentScanPred ('-' :: (cs2 ++ '-' :: '-' :: '>' :: rest)) '-' = true
          · rw [if_pos hp2]
            left
            simp [containsSeq, List.isPrefixOf]
          · -- the scan would stop here only at a `-->` inside the body
            exfalso
            have hXt : (['-', '-', '>'].isPrefixOf
                ('-' :: (cs2 ++ '-' :: '-' :: '>' :: rest))) = true := by
              by_contra hx
              have hx' : (['-', '-', '>'].isPrefixOf
                  ('-' :: (cs2 ++ '-' :: '-' :: '>' :: rest))) = false := by
                revert hx
                cases (['-', '-', '>'].isPrefixOf ('-' :: (cs2 ++ '-' :: '-' :: '>' :: rest))) <;>
                  simp
              apply hp2
              unfold commentScanPred
              rw [hx']
              rfl
            simp only [List.isPrefixOf, beq_self_eq_true, Bool.true_and] at hXt
            cases cs2 with
            | nil => simp [List.isPrefixOf] at hXt
            | cons c3 cs3 =>
              simp only [List.cons_append, List.isPrefixOf] at hXt
              rw [Bool.and_eq_true] at hXt
              have hc3 : c3 = '-' := by
                have := hXt.1
                simp at this
                exact this.symm
              cases cs3 with
              | nil =>
                have := hXt.2
                simp [List.isPrefixOf] at this
              | cons c4 cs4 =>
                have hc4 : c4 = '>' := by
                  have := hXt.2
                  simp [List.isPrefixOf] at this
                  exact this.symm
                subst hc3
                subst hc4
                simp [containsSeq, List.isPrefixOf] at h2
      · -- the body does not begin with `--`: recurse on the tail
        have h1' : containsSeq ['-', '-'] cs = true := by
          have h1'' := h1
          simp only [containsSeq, Bool.or_eq_true] at h1''
          rcases h1'' with h | h
          · exact absurd h hpre2
          · exact h
        rcases ih h1' h2'.2 with hl | hr
        · left
          simp [containsSeq, hl]
        · right
          simpa using hr
    · rw [if_neg hp]
      right
      have hp0 : commentScanPred (c :: (cs ++ '-' :: '-' :: '>' :: rest)) c = false := by
        revert hp
        cases commentScanPred (c :: (cs ++ '-' :: '-' :: '>' :: rest)) c <;> simp
      unfold commentScanPred at hp0
      rw [Bool.and_eq_false_iff] at hp0
      rcases hp0 with hA | hB
      · -- the scan stopped at a `-->`: only possible through a `-->` in the body
        have hX : (c == '-' && (['-', '-', '>'].isPrefixOf
            (c :: (cs ++ '-' :: '-' :: '>' :: rest)))) = true := by
          revert hA
          cases (c == '-' && (['-', '-', '>'].isPrefixOf
            (c :: (cs ++ '-' :: '-' :: '>' :: rest)))) <;> simp
        rw [Bool.and_eq_true] at hX
        obtain ⟨hAc, hApre⟩ := hX
        have hc : c = '-' := by simpa using hAc
        subst hc
        exfalso
        simp only [List.isPrefixOf, beq_self_eq_true, Bool.true_and] at hApre
        cases cs with
        | nil => simp [List.isPrefixOf] at hApre
        | cons c2 cs2 =>
          simp only [List.cons_append, List.isPrefixOf] at hApre
          rw [Bool.and_eq_true] at hApre
          have hc2 : c2 = '-' := by
            have := hApre.1
            simp at this
            exact this.symm
          cases cs2 with
          | nil =>
            have := hApre.2
            simp [List.isPrefixOf] at this
          | cons c3 cs3 =>
            have hc3 : c3 = '>' := by
              have := hApre.2
              simp [List.isPrefixOf] at this
              exact this.symm
            subst hc2
            subst hc3
            simp [containsSeq, List.isPrefixOf] at h2
      · -- a non-XML stop character is never `-`, so `-->` does not match
        have hcne : ('-' == c) = false := by
          by_cases hcc : c = '-'
          · subst hcc
            exact absurd hB (by decide)
          · exact beq_eq_false_iff_ne.2 (fun h => hcc h.symm)
        simp [List.isPrefixOf, hcne]

/-- The first pull on a document starting with `<!--` classifies a
comment and dispatches `parse_comment` on the cursor placed after the
opening `<!--`. -/
theorem first_pull_comment (xs : List Char) :
    (Tokenizer.fromList ('<' :: '!' :: '-' :: '-' :: xs)).next.1 =
      (match parse_comment (Stream.mk ('<' :: '!' :: '-' :: '-' :: xs) 4) with
        | .ok (tok, _) => some (.ok tok)
        | .error e => some (.error e)) := by
  have hbom : (bomChar == '<') = false := by decide
  have hclass : parse_token_type (Stream.mk ('<' :: '!' :: '-' :: '-' :: xs) 0) .Start
      = .ok (.Comment, Stream.mk ('<' :: '!' :: '-' :: '-' :: xs) 4) := by
    unfold parse_token_type
    simp [Stream.currByte, Stream.rest, Stream.startsWith, Stream.advance, List.isPrefixOf,
      Bind.bind, Except.bind]
  have himpl : parse_next_impl (('<' :: '!' :: '-' :: '-' :: xs).length + 1)
        (Stream.mk ('<' :: '!' :: '-' :: '-' :: xs) 0) .Start
      = dispatch (Stream.mk ('<' :: '!' :: '-' :: '-' :: xs) 4)
          (parse_comment (Stream.mk ('<' :: '!' :: '-' :: '-' :: xs) 4)) := by
    rw [parse_next_impl]
    simp [Stream.atEnd, Stream.rest, Stream.startsWith, List.isPrefixOf, hbom, hclass]
  have hae : (Stream.mk ('<' :: '!' :: '-' :: '-' :: xs) 0).atEnd = false := rfl
  have hse : (State.Start == State.End) = false := rfl
  show (Tokenizer.next _).1 = _
  unfold Tokenizer.next
  simp only [Tokenizer.fromList, hae, hse, Bool.or_self, Bool.false_eq_true, if_false,
    Bool.or_false]
  rw [himpl]
  rcases parse_comment (Stream.mk ('<' :: '!' :: '-' :: '-' :: xs) 4) with e | ⟨tok, s5⟩ <;>
    simp [dispatch]

/-- `parse_comment`, run right after the opening `<!--` of a document
that is exactly `<!--` followed by `xs`: scan, reject an inner `--`,
require the terminating `-->`. -/
theorem parse_comment_at4 (xs : List Char) :
    parse_comment (Stream.mk ('<' :: '!' :: '-' :: '-' :: xs) 4) =
      (if containsSeq ['-', '-'] (spanWhileP commentScanPred xs).1 = true then
        .error (.InvalidToken .Comment
          (genTextPosFrom ('<' :: '!' :: '-' :: '-' :: xs) 0) none)
      else if (['-', '-', '>'].isPrefixOf (spanWhileP commentScanPred xs).2) = true then
        .ok (.Comment ⟨4, (spanWhileP commentScanPred xs).1⟩,
          Stream.mk ('<' :: '!' :: '-' :: '-' :: xs)
            (4 + (spanWhileP commentScanPred xs).1.length + 3))
      else .error (.InvalidToken .Comment
        (genTextPosFrom ('<' :: '!' :: '-' :: '-' :: xs) 0) none)) := by
  have hrest4 : (Stream.mk ('<' :: '!' :: '-' :: '-' :: xs) 4).rest = xs := by
    simp [Stream.rest]
  have hrest5 : (Stream.mk ('<' :: '!' :: '-' :: '-' :: xs)
      (4 + (spanWhileP commentScanPred xs).1.length)).rest
      = (spanWhileP commentScanPred xs).2 := by
    show (('<' :: '!' :: '-' :: '-' :: xs).drop (4 + (spanWhileP commentScanPred xs).1.length))
      = _
    rw [show (4 + (spanWhileP commentScanPred xs).1.length)
        = (spanWhileP commentScanPred xs).1.length + 4 from Nat.add_comm _ _]
    rw [← List.drop_drop]
    simp [spanWhileP_snd_drop]
  unfold parse_comment Stream.consumeChars Stream.consumeBytes
  rw [hrest4]
  dsimp only
  split
  · rfl
  · unfold Stream.skipString Stream.startsWith
    by_cases hpre : (['-', '-', '>'].isPrefixOf (spanWhileP commentScanPred xs).2) = true
    · rw [if_pos hpre]
      rw [show ((Stream.mk ('<' :: '!' :: '-' :: '-' :: xs) 4).advance
          (spanWhileP commentScanPred xs).1.length).rest
          = (spanWhileP commentScanPred xs).2 from hrest5]
      rw [if_pos hpre]
      rfl
    · rw [if_neg hpre]
      rw [show ((Stream.mk ('<' :: '!' :: '-' :: '-' :: xs) 4).advance
          (spanWhileP commentScanPred xs).1.length).rest
          = (spanWhileP commentScanPred xs).2 from hrest5]
      rw [if_neg hpre]
      rfl

/-- **C6 counterexample.** The comment construct `<!--` U+0001 `-->` has
a body with no `--`, yet the pull returns `InvalidToken(Comment)` rather
than `Ok(Comment(body))`: the scan stops at the non-XML character, so
the required `-->` is not reached. -/
theorem claim_C6_counterexample :
    ((Tokenizer.fromList
        ('<' :: '!' :: '-' :: '-' :: (Char.ofNat 1 :: '-' :: '-' :: '>' :: []))).next.1
      = some (.error (.InvalidToken .Comment ⟨1, 1⟩ none))) ∧
    (containsSeq ['-', '-'] [Char.ofNat 1] = false) ∧
    ((Tokenizer.fromList
        ('<' :: '!' :: '-' :: '-' :: (Char.ofNat 1 :: '-' :: '-' :: '>' :: []))).next.1
      ≠ some (.ok (.Comment ⟨4, [Char.ofNat 1]⟩))) := by
  refine ⟨by decide, by decide, by decide⟩

/-- **C6 (amended).** For a comment construct `<!--` body `-->` (body
written canonically, i.e. not itself containing `-->`): a body containing
`--` makes the pull report `InvalidToken(Comment)`; a body of XML
characters without `--` yields `Ok(Comment(span))` whose span is exactly
the body (whitespace preserved), while a body with a character outside
the XML `Char` production also errors (see the counterexample); and a
comment never terminated by `-->` is also an `InvalidToken(Comment)`
error. -/
theorem claim_C6_comment_rules (body rest : List Char) :
    (containsSeq ['-', '-'] body = true → containsSeq ['-', '-', '>'] body = false →
      (Tokenizer.fromList ('<' :: '!' :: '-' :: '-' :: (body ++ '-' :: '-' :: '>' :: rest))).next.1
        = some (.error (.InvalidToken .Comment
            (genTextPosFrom ('<' :: '!' :: '-' :: '-' :: (body ++ '-' :: '-' :: '>' :: rest)) 0)
            none))) ∧
    (containsSeq ['-', '-'] body = false → body.all isXmlChar = true →
      (Tokenizer.fromList ('<' :: '!' :: '-' :: '-' :: (body ++ '-' :: '-' :: '>' :: rest))).next.1
        = some (.ok (.Comment ⟨4, body⟩))) ∧
    (containsSeq ['-', '-', '>'] body = false →
      (Tokenizer.fromList ('<' :: '!' :: '-' :: '-' :: body)).next.1
        = some (.error (.InvalidToken .Comment
            (genTextPosFrom ('<' :: '!' :: '-' :: '-' :: body) 0) none))) := by
  refine ⟨?_, ?_, ?_⟩
  · intro h1 h2
    rw [first_pull_comment, parse_comment_at4]
    by_cases hc : containsSeq ['-', '-']
        (spanWhileP commentScanPred (body ++ '-' :: '-' :: '>' :: rest)).1 = true
    · rw [if_pos hc]
    · have hr : (['-', '-', '>'].isPrefixOf
          (spanWhileP commentScanPred (body ++ '-' :: '-' :: '>' :: rest)).2) = false := by
        rcases comm_scan_err body rest h1 h2 with hl | hr
        · exact absurd hl hc
        · exact hr
      rw [if_neg hc, if_neg (by simp [hr])]
  · intro h1 h2
    rw [first_pull_comment, parse_comment_at4, comm_scan_clean body rest h1 h2]
    rw [if_neg (by simp [h1]), if_pos (by simp [List.isPrefixOf])]
  · intro h
    rw [first_pull_comment, parse_comment_at4]
    have hpre : (['-', '-', '>'].isPrefixOf (spanWhileP commentScanPred body).2) = false := by
      by_contra hx
      have hx' : (['-', '-', '>'].isPrefixOf (spanWhileP commentScanPred body).2) = true := by
        revert hx
        cases (['-', '-', '>'].isPrefixOf (spanWhileP commentScanPred body).2) <;> simp
      have hcont := contains_of_prefix_suffix ['-', '-', '>']
        (spanWhileP commentScanPred body).1 (spanWhileP commentScanPred body).2 hx'
      rw [spanWhileP_append] at hcont
      rw [h] at hcont
      simp at hcont
    by_cases hc : containsSeq ['-', '-'] (spanWhileP commentScanPred body).1 = true
    · rw [if_pos hc]
    · rw [if_neg hc, if_neg (by simp [hpre])]

/-- **C6 witness**: `"<!-- a -- b -->"` errors on the inner `--`;
`"<!-- ok -->"` yields the comment span `" ok "` exactly. -/
theorem claim_C6_comment_rules_witness :
    ((Tokenizer.fromList
        ('<' :: '!' :: '-' :: '-' ::
          ([' ', 'a', ' ', '-', '-', ' ', 'b', ' '] ++ '-' :: '-' :: '>' :: []))).next.1
      = some (.error (.InvalidToken .Comment
          (genTextPosFrom
            ('<' :: '!' :: '-' :: '-' ::
              ([' ', 'a', ' ', '-', '-', ' ', 'b', ' '] ++ '-' :: '-' :: '>' :: [])) 0)
          none))) ∧
    ((Tokenizer.fromList
        ('<' :: '!' :: '-' :: '-' ::
          ([' ', 'o', 'k', ' '] ++ '-' :: '-' :: '>' :: []))).next.1
      = some (.ok (.Comment ⟨4, [' ', 'o', 'k', ' ']⟩))) :=
  ⟨(claim_C6_comment_rules [' ', 'a', ' ', '-', '-', ' ', 'b', ' '] []).1 (by decide) (by decide),
   (claim_C6_comment_rules [' ', 'o', 'k', ' '] []).2.1 (by decide) (by decide)⟩

/-! ## Attribute parsing lemmas (for claim C7) -/

theorem contains_false_forall {v : List Char} {q : Char} (h : v.contains q = false) :
    ∀ c ∈ v, (c != q) = true := by
  intro c hc
  simp only [bne_iff_ne, ne_eq]
  intro he
  subst he
  have h2 : List.elem c v = true := List.elem_eq_true_of_mem hc
  unfold List.contains at h
  rw [h2] at h
  cases h

theorem splitColon_of_not_contains {name : List Char} (h : name.contains ':' = false) :
    splitColon name = none := by
  induction name with
  | nil => rfl
  | cons c cs ih =>
    rw [List.contains_cons, Bool.or_eq_false_iff] at h
    have hc : (c == ':') = false := by
      have := h.1
      simp at this
      exact beq_eq_false_iff_ne.2 (fun he => this he.symm)
    rw [splitColon, hc, ih h.2]
    rfl

theorem nameStart_not_space {c : Char} (h : isXmlNameStart c = true) :
    isXmlSpace c = false := by
  cases hs : isXmlSpace c
  · rfl
  · exfalso
    simp only [isXmlSpace, Bool.or_eq_true, beq_iff_eq] at hs
    rcases hs with ((h1 | h1) | h1) | h1 <;> subst h1 <;> exact absurd h (by decide)

/-- `consume_name` on a well-formed name followed by `=`. -/
theorem consumeName_before_eq (s : Stream) (name z' : List Char)
    (hrest : s.rest = name ++ '=' :: z')
    (hne : name ≠ [])
    (hstart : isXmlNameStart (name.headD 'a') = true)
    (hchars : name.all isXmlNameChar = true) :
    s.consumeName = .ok (⟨s.pos, name⟩, s.advance name.length) := by
  cases name with
  | nil => exact absurd rfl hne
  | cons c cs =>
    have htw := takeWhile_append_stop isXmlNameChar (c :: cs) '=' z'
      (fun d hd => (List.all_eq_true.1 hchars) d hd) (by decide)
    have hstart' : isXmlNameStart c = true := by simpa using hstart
    unfold Stream.consumeName
    simp only [hrest, List.cons_append]
    rw [if_pos (by simpa using hstart')]
    rw [show (c :: (cs ++ '=' :: z')).takeWhile isXmlNameChar = c :: cs from by
      simpa [List.cons_append] using htw.1]

/-- `consume_qname` on a colon-free well-formed name followed by `=`:
empty prefix span at the name's start, local span the whole name. -/
theorem consumeQname_before_eq (s : Stream) (name z' : List Char)
    (hrest : s.rest = name ++ '=' :: z')
    (hne : name ≠ [])
    (hstart : isXmlNameStart (name.headD 'a') = true)
    (hchars : name.all isXmlNameChar = true)
    (hnc : name.contains ':' = false) :
    s.consumeQname = .ok ((⟨s.pos, []⟩, ⟨s.pos, name⟩), s.advance name.length) := by
  unfold Stream.consumeQname
  rw [consumeName_before_eq s name z' hrest hne hstart hchars]
  simp [Bind.bind, Except.bind, splitColon_of_not_contains hnc]

/-- `parse_attribute` on a well-formed `name="value"` shape: an embedded
`<` in the value is rejected with `InvalidAttributeValue`, otherwise the
attribute token is produced with the exact value span. -/
theorem parse_attribute_shaped (s : Stream) (name v rest2 : List Char) (q : Char)
    (hrest : s.rest = name ++ '=' :: q :: (v ++ q :: rest2))
    (hne : name ≠ [])
    (hstart : isXmlNameStart (name.headD 'a') = true)
    (hchars : name.all isXmlNameChar = true)
    (hnc : name.contains ':' = false)
    (hq : q = '"' ∨ q = '\'')
    (hvq : v.contains q = false) :
    (v.contains '<' = true → parse_attribute s = .error .InvalidAttributeValue) ∧
    (v.contains '<' = false → ∃ s', parse_attribute s =
      .ok (.Attribute (⟨s.pos, []⟩, ⟨s.pos, name⟩) ⟨s.pos + name.length + 2, v⟩, s')) := by
  cases name with
  | nil => exact absurd rfl hne
  | cons c cs =>
  have hstart' : isXmlNameStart c = true := by simpa using hstart
  have hskip : s.skipAsciiSpaces = s := by
    unfold Stream.skipAsciiSpaces Stream.skipSpaces
    rw [hrest]
    simp only [List.cons_append, List.takeWhile]
    rw [nameStart_not_space hstart']
    simp only [Bool.false_eq_true, if_false, List.length_nil]
    exact s.advance_zero
  have hcur : s.getCurrByte = some c := by
    unfold Stream.getCurrByte
    rw [hrest]
    rfl
  have hq1 : s.consumeQname
      = .ok ((⟨s.pos, []⟩, ⟨s.pos, c :: cs⟩), s.advance (c :: cs).length) :=
    consumeQname_before_eq s (c :: cs) (q :: (v ++ q :: rest2)) hrest hne hstart hchars hnc
  have hrest1 : (s.advance (c :: cs).length).rest = '=' :: q :: (v ++ q :: rest2) := by
    rw [Stream.rest_advance, hrest, List.drop_left]
  have hqs : isXmlSpace q = false := by
    rcases hq with h | h <;> subst h <;> decide
  have hrest2 : ((s.advance (c :: cs).length).advance 1).rest = q :: (v ++ q :: rest2) := by
    rw [Stream.rest_advance, hrest1]
    rfl
  have hsk1 : (s.advance (c :: cs).length).skipAsciiSpaces = s.advance (c :: cs).length := by
    unfold Stream.skipAsciiSpaces Stream.skipSpaces
    rw [hrest1]
    simp only [List.takeWhile]
    rw [show isXmlSpace '=' = false from by decide]
    simp only [Bool.false_eq_true, if_false, List.length_nil]
    exact Stream.advance_zero _
  have hsk2 : ((s.advance (c :: cs).length).advance 1).skipAsciiSpaces
      = (s.advance (c :: cs).length).advance 1 := by
    unfold Stream.skipAsciiSpaces Stream.skipSpaces
    rw [hrest2]
    simp only [List.takeWhile]
    rw [hqs]
    simp only [Bool.false_eq_true, if_false, List.length_nil]
    exact Stream.advance_zero _
  have heq1 : (s.advance (c :: cs).length).consumeEq
      = .ok ((s.advance (c :: cs).length).advance 1) := by
    unfold Stream.consumeEq
    rw [hsk1]
    dsimp only
    unfold Stream.consumeByte
    rw [hrest1]
    dsimp only
    simp only [beq_self_eq_true, if_true, Bind.bind, Except.bind]
    rw [hsk2]
  have hquote : ((s.advance (c :: cs).length).advance 1).consumeQuote
      = .ok (q, ((s.advance (c :: cs).length).advance 1).advance 1) := by
    unfold Stream.consumeQuote Stream.consumeEither
    rw [hrest2]
    have hcq : (['"', '\''].contains q) = true := by
      rcases hq with h | h <;> subst h <;> decide
    simp only [hcq, if_true]
  have hrest3 : (((s.advance (c :: cs).length).advance 1).advance 1).rest
      = v ++ q :: rest2 := by
    rw [Stream.rest_advance, hrest2]
    rfl
  have hbytes : (((s.advance (c :: cs).length).advance 1).advance 1).consumeBytes
        (fun _ x => x != q)
      = (⟨(((s.advance (c :: cs).length).advance 1).advance 1).pos, v⟩,
         (((s.advance (c :: cs).length).advance 1).advance 1).advance v.length) := by
    unfold Stream.consumeBytes
    rw [spanWhileP_const, hrest3]
    rw [(takeWhile_append_stop (fun x => x != q) v q rest2
      (contains_false_forall hvq) (by simp)).1]
  have hrest4 : ((((s.advance (c :: cs).length).advance 1).advance 1).advance v.length).rest
      = q :: rest2 := by
    rw [Stream.rest_advance, hrest3, List.drop_left]
  have hclose : ((((s.advance (c :: cs).length).advance 1).advance 1).advance v.length).consumeByte q
      = .ok (((((s.advance (c :: cs).length).advance 1).advance 1).advance v.length).advance 1) := by
    unfold Stream.consumeByte
    rw [hrest4]
    simp only [beq_self_eq_true, if_true]
  have hmain : ∃ s', parse_attribute s =
      (if v.contains '<' = true then .error .InvalidAttributeValue
       else .ok (.Attribute (⟨s.pos, []⟩, ⟨s.pos, c :: cs⟩)
         ⟨s.pos + (c :: cs).length + 2, v⟩, s')) := by
    refine ⟨(((((s.advance (c :: cs).length).advance 1).advance 1).advance
      v.length).advance 1).skipAsciiSpaces, ?_⟩
    unfold parse_attribute
    rw [hskip]
    dsimp only
    rw [hcur]
    split
    · rename_i heq
      rw [Option.some.injEq] at heq
      exact absurd hstart' (by rw [heq]; decide)
    · rename_i heq
      rw [Option.some.injEq] at heq
      exact absurd hstart' (by rw [heq]; decide)
    · simp only [Bind.bind, Except.bind]
      rw [hq1]
      dsimp only
      rw [heq1]
      dsimp only
      rw [hquote]
      dsimp only
      rw [hbytes]
      dsimp only
      split
      · rfl
      · rw [hclose]
        rfl
  obtain ⟨s', hs'⟩ := hmain
  constructor
  · intro hlt
    rw [hs', if_pos hlt]
  · intro hlt
    exact ⟨s', by rw [hs', if_neg (by rw [hlt]; simp)]⟩

/-- **C7.** In the `Attributes` state, a quoted attribute value
containing a literal `<` makes the pull fail with
`InvalidToken(Attribute, _, Some(InvalidAttributeValue))`; a value
without `<` raises no error on account of its content — the pull yields
the `Attribute` token with the exact value span. -/
theorem claim_C7_attr_value_lt (t : Tokenizer) (name v rest2 : List Char) (q : Char)
    (hstate : t.state = .Attributes)
    (hpos : t.stream.pos ≠ 0)
    (hrest : t.stream.rest = name ++ '=' :: q :: (v ++ q :: rest2))
    (hne : name ≠ [])
    (hstart : isXmlNameStart (name.headD 'a') = true)
    (hchars : name.all isXmlNameChar = true)
    (hnc : name.contains ':' = false)
    (hq : q = '"' ∨ q = '\'')
    (hvq : v.contains q = false) :
    (v.contains '<' = true →
      t.next.1 = some (.error (.InvalidToken .Attribute
        (genTextPosFrom t.stream.buf t.stream.pos) (some .InvalidAttributeValue)))) ∧
    (v.contains '<' = false →
      t.next.1 = some (.ok (.Attribute (⟨t.stream.pos, []⟩, ⟨t.stream.pos, name⟩)
        ⟨t.stream.pos + name.length + 2, v⟩))) := by
  have hps := parse_attribute_shaped t.stream name v rest2 q hrest hne hstart hchars hnc hq hvq
  have hne' : t.stream.atEnd = false := by
    simp [Stream.atEnd, hrest]
  have hb : (t.stream.pos == 0) = false := by simpa using hpos
  have hgate : (t.stream.atEnd || t.state == State.End) = false := by
    rw [hne', hstate]
    rfl
  have himpl : parse_next_impl (t.stream.buf.length + 1) t.stream t.state =
      (match parse_attribute t.stream with
       | .ok (tok, s') => (some (.ok tok), s')
       | .error e => (some (.error (.InvalidToken .Attribute
           (genTextPosFrom t.stream.buf t.stream.pos) (some e))), t.stream)) := by
    rw [hstate, parse_next_impl, hne']
    simp only [Bool.false_eq_true, if_false, hb, Bool.false_and]
  constructor
  · intro hlt
    have hpa := hps.1 hlt
    unfold Tokenizer.next
    rw [hgate]
    simp only [Bool.false_eq_true, if_false]
    rw [himpl, hpa]
  · intro hlt
    obtain ⟨s', hpa⟩ := hps.2 hlt
    unfold Tokenizer.next
    rw [hgate]
    simp only [Bool.false_eq_true, if_false]
    rw [himpl, hpa]

/-- **C7 witness**: in `"<a b='x'/>"` the attribute parses; in
`"<a b='<'/>"` the `<` in the value is rejected. -/
theorem claim_C7_attr_value_lt_witness :
    ((Tokenizer.mk ⟨['<', 'a', ' ', 'b', '=', '\'', 'x', '\'', '/', '>'], 3⟩
        .Attributes 0 false).next.1
      = some (.ok (.Attribute (⟨3, []⟩, ⟨3, ['b']⟩) ⟨6, ['x']⟩))) ∧
    ((Tokenizer.mk ⟨['<', 'a', ' ', 'b', '=', '\'', '<', '\'', '/', '>'], 3⟩
        .Attributes 0 false).next.1
      = some (.error (.InvalidToken .Attribute (genTextPosFrom
          ['<', 'a', ' ', 'b', '=', '\'', '<', '\'', '/', '>'] 3)
          (some .InvalidAttributeValue)))) :=
  ⟨(claim_C7_attr_value_lt
      (Tokenizer.mk ⟨['<', 'a', ' ', 'b', '=', '\'', 'x', '\'', '/', '>'], 3⟩ .Attributes 0 false)
      ['b'] ['x'] ['/', '>'] '\'' rfl (by decide) (by decide) (by decide) (by decide)
      (by decide) (by decide) (.inr rfl) (by decide)).2 (by decide),
   (claim_C7_attr_value_lt
      (Tokenizer.mk ⟨['<', 'a', ' ', 'b', '=', '\'', '<', '\'', '/', '>'], 3⟩ .Attributes 0 false)
      ['b'] ['<'] ['/', '>'] '\'' rfl (by decide) (by decide) (by decide) (by decide)
      (by decide) (by decide) (.inr rfl) (by decide)).1 (by decide)⟩

/-- **C10 (amended).** `<?xml` not followed by a space character (one
more character present) is always classified as a ProcessingInstruction,
never as a Declaration; for `"<?xml?>"` the parsed PI target is exactly
`xml` (a following name character would extend the target instead). -/
theorem claim_C10_xml_no_space_is_pi :
    (∀ (s : Stream) (st : State) (c : Char) (tail : List Char),
      s.rest = '<' :: '?' :: 'x' :: 'm' :: 'l' :: c :: tail → ¬(c = ' ') →
      parse_token_type s st = .ok (.PI, s.advance 2)) ∧
    ((Tokenizer.fromList ['<', '?', 'x', 'm', 'l', '?', '>']).next.1
      = some (.ok (.ProcessingInstruction ⟨2, ['x', 'm', 'l']⟩ none))) := by
  constructor
  · intro s st c tail hrest hc
    have hce : (' ' == c) = false := beq_eq_false_iff_ne.2 (fun h => hc h.symm)
    unfold parse_token_type
    simp [Stream.currByte, Stream.startsWith, hrest, Stream.rest_advance, List.isPrefixOf,
      Bind.bind, Except.bind, Stream.advance_advance, hce]
  · decide

/-- **C10 (amended) witness**: classification of `"<?xml?>"` itself. -/
theorem claim_C10_xml_no_space_is_pi_witness :
    parse_token_type (Stream.mk ['<', '?', 'x', 'm', 'l', '?', '>'] 0) .Start
      = .ok (.PI, (Stream.mk ['<', '?', 'x', 'm', 'l', '?', '>'] 0).advance 2) :=
  claim_C10_xml_no_space_is_pi.1
    (Stream.mk ['<', '?', 'x', 'm', 'l', '?', '>'] 0) .Start '?' ['>']
    (by decide) (by decide)

/-- **C2.** When a pull in the `Start` state sees a construct beginning
with `<!DOCTYPE` at offset `N = t.stream.pos` and returns an error, that
error is `InvalidToken(DoctypeDecl, pos, cause)` whose `TextPos` is
resolved from offset `N` — the construct's start — not from the cursor
position at the point of failure. -/
theorem claim_C2_doctype_error_position (t : Tokenizer) (e : Error) (t' : Tokenizer)
    (hstate : t.state = .Start)
    (hpre : (['<', '!', 'D', 'O', 'C', 'T', 'Y', 'P', 'E'].isPrefixOf t.stream.rest) = true)
    (hnext : t.next = (some (.error e), t')) :
    ∃ cause, e = .InvalidToken .DoctypeDecl
      (genTextPosFrom t.stream.buf t.stream.pos) (some cause) := by
  obtain ⟨tl, htl⟩ := List.isPrefixOf_iff_prefix.1 hpre
  simp only [List.cons_append, List.nil_append] at htl
  have hne : t.stream.atEnd = false := by simp [Stream.atEnd, ← htl]
  have hbom : t.stream.startsWith [bomChar] = false := by
    simp only [Stream.startsWith, ← htl, List.isPrefixOf, Bool.and_true, Bool.and_eq_false_iff]
    decide
  have hclass : parse_token_type t.stream .Start = .ok (.DoctypeDecl, t.stream.advance 9) := by
    unfold parse_token_type
    simp [Stream.currByte, Stream.startsWith, Stream.rest_advance, ← htl,
      List.isPrefixOf, Bind.bind, Except.bind, Stream.advance_advance]
  have himpl : parse_next_impl (t.stream.buf.length + 1) t.stream t.state =
      dispatch (t.stream.advance 9) (parse_doctype (t.stream.advance 9)) := by
    rw [hstate, parse_next_impl, hne]
    simp only [Bool.false_eq_true, if_false, hbom, Bool.and_false, hclass]
  unfold Tokenizer.next at hnext
  have hgate : (t.stream.atEnd || t.state == State.End) = false := by
    rw [hne, hstate]; rfl
  rw [hgate] at hnext
  simp only [Bool.false_eq_true, if_false] at hnext
  rw [himpl] at hnext
  rcases hdt : parse_doctype_impl (t.stream.advance 9) with e0 | v0
  · refine ⟨e0, ?_⟩
    unfold parse_doctype mapErrAt at hnext
    rw [hdt] at hnext
    have h9 : ((t.stream.advance 9).pos : Int) + -9 = (t.stream.pos : Int) := by
      rw [Stream.pos_advance]
      push_cast
      ring
    rw [h9] at hnext
    dsimp only at hnext
    rw [if_neg (by omega : ¬((t.stream.pos : Int) < 0))] at hnext
    rw [Int.toNat_natCast] at hnext
    simp only [dispatch, Stream.buf_advance] at hnext
    rw [Prod.mk.injEq, Option.some.injEq, Except.error.injEq] at hnext
    exact hnext.1.symm
  · obtain ⟨tok0, s0⟩ := v0
    simp [parse_doctype, mapErrAt, hdt, dispatch] at hnext

/-- **C2 witness**: the truncated document `"<!DOCTYPE"` fails inside the
DOCTYPE recognizer, and the reported position is line 1 column 1, the
construct's start. -/
theorem claim_C2_doctype_error_position_witness :
    ∃ cause, (Error.InvalidToken .DoctypeDecl ⟨1, 1⟩ (some .UnexpectedEndOfStream))
      = .InvalidToken .DoctypeDecl
          (genTextPosFrom (Tokenizer.fromList
            ['<', '!', 'D', 'O', 'C', 'T', 'Y', 'P', 'E']).stream.buf
            (Tokenizer.fromList ['<', '!', 'D', 'O', 'C', 'T', 'Y', 'P', 'E']).stream.pos)
          (some cause) :=
  claim_C2_doctype_error_position
    (Tokenizer.fromList ['<', '!', 'D', 'O', 'C', 'T', 'Y', 'P', 'E'])
    (.InvalidToken .DoctypeDecl ⟨1, 1⟩ (some .UnexpectedEndOfStream))
    ((Tokenizer.fromList ['<', '!', 'D', 'O', 'C', 'T', 'Y', 'P', 'E']).next.2)
    rfl (by decide) (by decide)

/-- **C8 witness**: a misplaced `<?xml ` at offset 1 is rejected with
`UnexpectedToken`, and the declaration of `"<?xml version='1.0'?>"` is
produced from a pull starting at offset 0. -/
theorem claim_C8_decl_only_at_start_witness :
    ((Tokenizer.mk ⟨'x' :: ['<', '?', 'x', 'm', 'l', ' ', '?', '>'], 1⟩ .Start 0 false).next.1
      = some (.error (.UnexpectedToken .XMLDecl
          (genTextPosFrom ('x' :: ['<', '?', 'x', 'm', 'l', ' ', '?', '>']) 1)))) ∧
    ((Tokenizer.fromList
        ['<', '?', 'x', 'm', 'l', ' ', 'v', 'e', 'r', 's', 'i', 'o', 'n', '=', '\'', '1', '.', '0', '\'', '?', '>']).stream.pos
      = 0) :=
  ⟨claim_C8_decl_only_at_start.1 _ rfl (by decide) (by decide),
   claim_C8_decl_only_at_start.2 _
     ((Tokenizer.fromList
        ['<', '?', 'x', 'm', 'l', ' ', 'v', 'e', 'r', 's', 'i', 'o', 'n', '=', '\'', '1', '.', '0', '\'', '?', '>']).next.2)
     ⟨15, ['1', '.', '0']⟩ none none rfl (by decide)⟩

end XmlParser
